import Mathlib

/-!
Shallow embedding of the pgo-client game client (Go sources under `src/`),
covering the data model and the operations of `src/game/game.go`
(`Update`, `handleChatInput`, `setDirection`, `updateFrameIndex`,
`getCurrentFrame`, the chat-scroll logic and the helpers `min`, `max`,
`clamp`) and of the websocket receive loop `ListenToServer`
(`src/unnamed/part_000`), together with theorems settling the frozen
claims about the spec.

Modelling conventions:
* Go `string` values are modelled as `List Nat` of their UTF-8 bytes
  (`GoStr`): Go `len` on strings counts bytes and `s[:len(s)-1]` drops
  the final byte, so byte-level fidelity matters for the chat-input cap.
* Go `int` is modelled as `Int` (no arithmetic in the modelled code comes
  near 64-bit overflow); Go `%` on `int` is truncated remainder,
  `Int.tmod`.
* `time.Time`/`time.Duration` are modelled as `Int` milliseconds;
  `now.Sub(t) > debounceTime` becomes `debounceTime < now - t`.
* Go `float64` values (scrollbar geometry, `Input.Amount`, player
  coordinates) are modelled as `Rat`; the modelled code performs only
  `+ - * /` and comparisons on values where the results stay exact,
  except that a Go float division by zero yields `±Inf` where `Rat`
  yields `0` — that expression occurs only in the scrollbar hit-test
  geometry, on which no theorem below depends.
* `ebiten.IsKeyPressed`, `ebiten.InputChars`, mouse state and
  `time.Now()` are the per-frame inputs, gathered in `FrameInput`;
  `ebiten.Image` values are opaque (`Nat` ids); the `sync.Mutex` field
  guards data races only and has no sequential semantics.
* `Conn.WriteJSON` calls are modelled by accumulating the written
  messages in a list, in program order; `Update` is additionally
  instrumented to record which UI-toggle events were accepted in the
  frame (`Control`), which the source performs by flipping the
  corresponding boolean field and setting `lastToggleTime`.
* Go maps keyed by strings (`Players`) are modelled as association
  lists; `map[Direction]...` / `map[AnimationType]...` lookups are total
  functions (a missing key yields the zero value, as in Go).
-/

namespace PGO

/-- Go string as its UTF-8 byte sequence (`len` = list length). -/
abbrev GoStr := List Nat

/-! ### Constants (game.go lines 18-26) -/

def ScreenWidth : Int := 800
def ScreenHeight : Int := 600
/-- `debounceTime = 200 * time.Millisecond`, in ms. -/
def debounceTime : Int := 200
/-- `maxChatLines = 10`. -/
def maxChatLines : Int := 10
/-- `maxMessageLen = 100` (bytes, since Go `len` on a string counts bytes). -/
def maxMessageLen : Nat := 100
/-- `cursorBlinkInterval = 500 * time.Millisecond`, in ms. -/
def cursorBlinkInterval : Int := 500
def scrollBarWidth : Int := 10

/-! ### Enumerations -/

inductive Direction where
  | North
  | East
  | South
  | West
deriving DecidableEq

inductive AnimationType where
  | Idle
  | Walk
deriving DecidableEq

/-- The four debounced UI-toggle controls of `Update` (instrumentation tag). -/
inductive Control where
  | chatBox
  | chatCursor
  | mapEditor
  | inventory
deriving DecidableEq

/-! ### Wire messages -/

/-- `type Player struct { ID string; X, Y float64 }`. -/
structure Player where
  ID : GoStr
  X : Rat
  Y : Rat
deriving DecidableEq

/-- `type ChatMessage struct { Username, Message string }`. -/
structure ChatMessage where
  Username : GoStr
  Message : GoStr
deriving DecidableEq

/-- `type Input struct { Type string; Amount float64 }` (src/unnamed/part_004).
`Type` is a Lean keyword, so the field is named `Type'`; JSON `type` tags are
kept as Lean `String` literals since only whole-constant comparison matters. -/
structure Input where
  Type' : String
  Amount : Rat
deriving DecidableEq

/-- A message written to the websocket by `Update` (`Conn.WriteJSON`). -/
inductive OutMessage where
  | input (i : Input)
  | chat (c : ChatMessage)
deriving DecidableEq

/-! ### Game state (game.go lines 44-70) -/

/-- The `Game` struct. `Conn` and `mu` are omitted (socket writes are
returned as message lists; the mutex only guards data races). Frame images
are opaque `Nat` ids. -/
structure Game where
  PlayerImages : Direction → AnimationType → List Nat
  Players : List (GoStr × Player)
  ClientID : GoStr
  FrameIndex : Int
  AnimationTick : Int
  AnimationSpeed : Int
  AnimationSpeeds : AnimationType → Int
  Direction : PGO.Direction
  IsMoving : Bool
  IsMapEditorActive : Bool
  IsInventoryActive : Bool
  IsChatBoxActive : Bool
  IsChatCursorActive : Bool
  lastToggleTime : Int
  lastCursorBlink : Int
  cursorVisible : Bool
  chatMessages : List GoStr
  currentChatMessage : GoStr
  Username : GoStr
  chatScrollOffset : Int
  isDraggingScrollBar : Bool
  dragStartY : Rat
  originalScrollOffset : Int

/-! ### Per-frame inputs -/

/-- The engine/environment inputs read during one `Update` call:
`time.Now()` (ms), `ebiten.IsKeyPressed` per key, `ebiten.InputChars()`
(runes as codepoints), and mouse state. -/
structure FrameInput where
  now : Int
  keyTab : Bool
  keyEnter : Bool
  keyM : Bool
  keyI : Bool
  keyUp : Bool
  keyDown : Bool
  keyLeft : Bool
  keyRight : Bool
  keyPageUp : Bool
  keyPageDown : Bool
  keyBackspace : Bool
  inputChars : List Nat
  mouseLeft : Bool
  mouseX : Int
  mouseY : Int

/-! ### Helper functions (game.go lines 380-403) -/

/-- `func min(a, b int) int`. -/
def min (a b : Int) : Int :=
  if a < b then a else b

/-- `func max(a, b int) int`. -/
def max (a b : Int) : Int :=
  if a > b then a else b

/-- `func clamp(value, minValue, maxValue int) int`. -/
def clamp (value minValue maxValue : Int) : Int :=
  if value < minValue then minValue
  else if value > maxValue then maxValue
  else value

/-! ### UTF-8 (Go `string(rune)` conversion semantics) -/

/-- UTF-8 encoding of a scalar value (1-4 bytes). -/
def encodeUTF8 (c : Nat) : List Nat :=
  if c < 0x80 then [c]
  else if c < 0x800 then [0xC0 + c / 0x40, 0x80 + c % 0x40]
  else if c < 0x10000 then
    [0xE0 + c / 0x1000, 0x80 + c / 0x40 % 0x40, 0x80 + c % 0x40]
  else [0xF0 + c / 0x40000, 0x80 + c / 0x1000 % 0x40,
        0x80 + c / 0x40 % 0x40, 0x80 + c % 0x40]

/-- Go `string(char)` for a rune: surrogates and out-of-range values
encode as U+FFFD (the Go rune-to-string conversion rule). -/
def runeToBytes (c : Nat) : List Nat :=
  if 0xD800 ≤ c ∧ c < 0xE000 then encodeUTF8 0xFFFD
  else if 0x10FFFF < c then encodeUTF8 0xFFFD
  else encodeUTF8 c

/-- Go truncated conversion `int(x)` from `float64` (toward zero). -/
def ratToInt (q : Rat) : Int :=
  if q < 0 then -((-q).floor) else q.floor

/-- The animation type selected by `IsMoving` (the
`animationType := Idle; if IsMoving { animationType = Walk }` idiom). -/
def animType (isMoving : Bool) : AnimationType :=
  if isMoving then .Walk else .Idle

/-! ### Methods of `*Game` (game.go lines 214-267) -/

/-- `func (g *Game) handleChatInput()` (game.go lines 214-226): append each
typed rune's UTF-8 bytes while the byte length is below `maxMessageLen`,
then drop the final byte on backspace. -/
def handleChatInput (g : Game) (inp : FrameInput) : Game :=
  let typed : GoStr :=
    inp.inputChars.foldl
      (fun msg c =>
        if msg.length < maxMessageLen then msg ++ runeToBytes c else msg)
      g.currentChatMessage
  let g := { g with currentChatMessage := typed }
  if inp.keyBackspace ∧ 0 < g.currentChatMessage.length then
    { g with currentChatMessage := g.currentChatMessage.dropLast }
  else g

/-- `func (g *Game) setDirection(direction Direction)` (game.go lines 228-235). -/
def setDirection (g : Game) (direction : Direction) : Game :=
  if g.Direction ≠ direction then
    { g with Direction := direction, FrameIndex := 0 }
  else g

/-- `func (g *Game) updateFrameIndex()` (game.go lines 237-250); Go `%` on
`int` is truncated remainder (`Int.tmod`). -/
def updateFrameIndex (g : Game) : Game :=
  let frameCount : Int := (g.PlayerImages g.Direction (animType g.IsMoving)).length
  if 0 < frameCount then
    { g with FrameIndex := (g.FrameIndex + 1).tmod frameCount }
  else
    { g with FrameIndex := 0 }

/-- Result of `getCurrentFrame`: a frame id, one of the two error returns,
or the Go runtime panic a negative slice index would raise. -/
inductive FrameResult where
  | ok (frame : Nat)
  | errOutOfRange
  | errNoFrames
  | panicNegIndex
deriving DecidableEq

/-- `func (g *Game) getCurrentFrame() (*ebiten.Image, error)`
(game.go lines 252-267). `frames[g.FrameIndex]` panics in Go when the
index is negative, modelled by `panicNegIndex`. -/
def getCurrentFrame (g : Game) : FrameResult :=
  let frames := g.PlayerImages g.Direction (animType g.IsMoving)
  if 0 < frames.length then
    if g.FrameIndex < (frames.length : Int) then
      if h : 0 ≤ g.FrameIndex ∧ g.FrameIndex.toNat < frames.length then
        .ok (frames.get ⟨g.FrameIndex.toNat, h.2⟩)
      else .panicNegIndex
    else .errOutOfRange
  else .errNoFrames

/-! ### `func (g *Game) Update() error` (game.go lines 83-212)

`Update` always returns `nil`, so the Go error return is dropped. The body
is split into sequential phases following the source's own comment blocks;
besides the successor state, the toggle phases also report the
`Conn.WriteJSON` calls made and which debounced UI toggles were accepted
(the source marks acceptance by flipping the flag and setting
`lastToggleTime := now`). -/

/-- Lines 86-95: toggle chatbox visibility with Tab (debounced); closing
the chatbox also deactivates the chat cursor. -/
def tabPhase (g : Game) (inp : FrameInput) : Game × List Control :=
  if inp.keyTab ∧ debounceTime < inp.now - g.lastToggleTime then
    let g := { g with IsChatBoxActive := !g.IsChatBoxActive, lastToggleTime := inp.now }
    let g := if !g.IsChatBoxActive then { g with IsChatCursorActive := false } else g
    (g, [.chatBox])
  else (g, [])

/-- Lines 97-118: toggle chat cursor focus with Enter when the chatbox is
visible (debounced); on deactivation with a non-empty draft, send the chat
message, append it locally, clear the draft and scroll to the bottom. -/
def enterPhase (g : Game) (inp : FrameInput) : Game × List OutMessage × List Control :=
  if g.IsChatBoxActive ∧ inp.keyEnter ∧ debounceTime < inp.now - g.lastToggleTime then
    let g := { g with IsChatCursorActive := !g.IsChatCursorActive, lastToggleTime := inp.now }
    if ¬g.IsChatCursorActive ∧ 0 < g.currentChatMessage.length then
      let chatMessage : ChatMessage := { Username := g.Username, Message := g.currentChatMessage }
      let entry : GoStr := chatMessage.Username ++ [0x3A, 0x20] ++ chatMessage.Message
      let g := { g with chatMessages := g.chatMessages ++ [entry], currentChatMessage := [] }
      let g :=
        if maxChatLines < (g.chatMessages.length : Int) then
          { g with chatScrollOffset := (g.chatMessages.length : Int) - maxChatLines }
        else { g with chatScrollOffset := 0 }
      (g, [.chat chatMessage], [.chatCursor])
    else (g, [], [.chatCursor])
  else (g, [], [])

/-- Lines 120-128: while the chat cursor is active, handle chat input and
cursor blinking. -/
def chatInputPhase (g : Game) (inp : FrameInput) : Game :=
  if g.IsChatCursorActive then
    let g := handleChatInput g inp
    if cursorBlinkInterval ≤ inp.now - g.lastCursorBlink then
      { g with cursorVisible := !g.cursorVisible, lastCursorBlink := inp.now }
    else g
  else g

/-- Lines 132-139 (inside the `!IsChatCursorActive` guard): the debounced
M (map editor) and I (inventory) toggles, in order. -/
def panelToggles (g : Game) (inp : FrameInput) : Game × List Control :=
  let pM :=
    if inp.keyM ∧ debounceTime < inp.now - g.lastToggleTime then
      ({ g with IsMapEditorActive := !g.IsMapEditorActive, lastToggleTime := inp.now },
       [Control.mapEditor])
    else (g, [])
  let g := pM.1
  let pI :=
    if inp.keyI ∧ debounceTime < inp.now - g.lastToggleTime then
      ({ g with IsInventoryActive := !g.IsInventoryActive, lastToggleTime := inp.now },
       [Control.inventory])
    else (g, [])
  (pI.1, pM.2 ++ pI.2)

/-- Lines 141-162 (inside the `!IsChatCursorActive` guard): the arrow-key
if/else-if chain — at most one `WriteJSON(Input{...})`, `setDirection`,
`IsMoving = true`. -/
def movementBlock (g : Game) (inp : FrameInput) : Game × List OutMessage :=
  if inp.keyUp then
    ({ setDirection g .North with IsMoving := true },
     [OutMessage.input { Type' := "move_up", Amount := 2 }])
  else if inp.keyDown then
    ({ setDirection g .South with IsMoving := true },
     [OutMessage.input { Type' := "move_down", Amount := 2 }])
  else if inp.keyLeft then
    ({ setDirection g .West with IsMoving := true },
     [OutMessage.input { Type' := "move_left", Amount := 2 }])
  else if inp.keyRight then
    ({ setDirection g .East with IsMoving := true },
     [OutMessage.input { Type' := "move_right", Amount := 2 }])
  else (g, [])

/-- Lines 130-163: when the chat cursor is inactive, toggle the map editor
(M) and inventory (I) with debouncing, then send at most one move command
for the pressed arrow keys (priority up, down, left, right), setting the
facing direction and the moving flag. -/
def moveTogglePhase (g : Game) (inp : FrameInput) : Game × List OutMessage × List Control :=
  if ¬g.IsChatCursorActive then
    let p := panelToggles g inp
    let q := movementBlock p.1 inp
    (q.1, q.2, p.2)
  else (g, [], [])

/-- Lines 165-197: chat scrolling while the chatbox is active — scrollbar
dragging with the mouse (float64 geometry as `Rat`), then PageUp/PageDown. -/
def scrollPhase (g : Game) (inp : FrameInput) : Game :=
  if g.IsChatBoxActive then
    let g :=
      if g.isDraggingScrollBar then
        if inp.mouseLeft then
          let deltaY : Rat := (inp.mouseY : Rat) - g.dragStartY
          let chatBoxHeight : Rat := 300
          let maxScroll : Rat := (((g.chatMessages.length : Int) - maxChatLines : Int) : Rat)
          let newOffset : Int := g.originalScrollOffset + ratToInt (deltaY * maxScroll / chatBoxHeight)
          { g with chatScrollOffset := clamp newOffset 0 ((g.chatMessages.length : Int) - maxChatLines) }
        else { g with isDraggingScrollBar := false }
      else if inp.mouseLeft then
        let chatBoxHeight : Rat := 300
        let scrollBarHeight : Rat := chatBoxHeight * ((maxChatLines : Int) : Rat) / ((g.chatMessages.length : Int) : Rat)
        let scrollBarY : Rat := (ScreenHeight : Rat) - chatBoxHeight + (chatBoxHeight - scrollBarHeight) * (g.chatScrollOffset : Rat) / ((((g.chatMessages.length : Int) - maxChatLines : Int)) : Rat)
        if (ScreenWidth : Rat) - (scrollBarWidth : Rat) ≤ (inp.mouseX : Rat) ∧ scrollBarY ≤ (inp.mouseY : Rat) ∧ (inp.mouseY : Rat) ≤ scrollBarY + scrollBarHeight then
          { g with isDraggingScrollBar := true, dragStartY := (inp.mouseY : Rat), originalScrollOffset := g.chatScrollOffset }
        else g
      else g
    if inp.keyPageUp then
      { g with chatScrollOffset := PGO.max 0 (g.chatScrollOffset - 1) }
    else if inp.keyPageDown then
      { g with chatScrollOffset := PGO.min ((g.chatMessages.length : Int) - maxChatLines) (g.chatScrollOffset + 1) }
    else g
  else g

/-- Lines 199-209: increment the animation tick and step the frame index
once the tick reaches the speed for the current animation type. -/
def animationPhase (g : Game) : Game :=
  let g := { g with AnimationTick := g.AnimationTick + 1 }
  let g := { g with AnimationSpeed := g.AnimationSpeeds (animType g.IsMoving) }
  if g.AnimationSpeed ≤ g.AnimationTick then
    updateFrameIndex { g with AnimationTick := 0 }
  else g

/-- One `Update` call: successor state, messages written to the socket
(in program order), accepted UI toggles. -/
def UpdateStep (g : Game) (inp : FrameInput) : Game × List OutMessage × List Control :=
  let g0 : Game := { g with IsMoving := false }
  let p1 := tabPhase g0 inp
  let p2 := enterPhase p1.1 inp
  let g3 := chatInputPhase p2.1 inp
  let p4 := moveTogglePhase g3 inp
  let g5 := scrollPhase p4.1 inp
  let g6 := animationPhase g5
  (g6, p2.2.1 ++ p4.2.1, p1.2 ++ p2.2.2 ++ p4.2.2)

/-- The successor state of one `Update` call. -/
def Update (g : Game) (inp : FrameInput) : Game :=
  (UpdateStep g inp).1

/-- The messages one `Update` call writes to the websocket. -/
def UpdateMsgs (g : Game) (inp : FrameInput) : List OutMessage :=
  (UpdateStep g inp).2.1

/-- The UI toggles one `Update` call accepts. -/
def UpdateToggles (g : Game) (inp : FrameInput) : List Control :=
  (UpdateStep g inp).2.2

/-- The state just before the movement/panel-toggle block of a frame
(after the Tab, Enter and chat-input phases have run). -/
def afterChatPhases (g : Game) (inp : FrameInput) : Game :=
  chatInputPhase (enterPhase (tabPhase { g with IsMoving := false } inp).1 inp).1 inp

/-- A run of the engine loop: fold `Update` over the frame inputs. -/
def run (g : Game) (inps : List FrameInput) : Game :=
  inps.foldl Update g

/-- The accepted UI-toggle events of a run, each stamped with the
`time.Now()` value of its frame. -/
def runEvents (g : Game) : List FrameInput → List (Int × Control)
  | [] => []
  | inp :: rest =>
    (UpdateToggles g inp).map (fun c => (inp.now, c)) ++ runEvents (Update g inp) rest

/-- The move commands among the messages of one `Update` call. -/
def moveMsgs (g : Game) (inp : FrameInput) : List OutMessage :=
  (UpdateMsgs g inp).filter fun m => match m with
    | .input _ => true
    | .chat _ => false

/-! ### Receive loop (src/unnamed/part_000, lines 24-37) -/

/-- The result of one `Conn.ReadJSON(&players)` call: a decoded
player map, or a decode/read error (payload opaque). -/
abbrev ReadResult := Except Unit (List (GoStr × Player))

/-- The `g.Players = players` assignment of a successful iteration
(performed under `g.mu`). -/
def applyServerState (g : Game) (players : List (GoStr × Player)) : Game :=
  { g with Players := players }

/-- `func (g *Game) ListenToServer()` over a stream of read results: each
successful decode replaces `Players` wholesale; the first error returns
from the loop, leaving the state untouched and the rest of the stream
unread. -/
def ListenToServer (g : Game) : List ReadResult → Game
  | [] => g
  | r :: rest =>
    match r with
    | .error _ => g
    | .ok players => ListenToServer (applyServerState g players) rest

/-- Association-list lookup mirroring Go map indexing `players[k]`. -/
def lookupPlayer (ps : List (GoStr × Player)) (k : GoStr) : Option Player :=
  match ps with
  | [] => none
  | (k', v) :: rest => if k' = k then some v else lookupPlayer rest k

/-! ### Draw-side chat indexing (game.go lines 318-351) -/

/-- The indices at which `drawChatBox`'s message loop reads
`g.chatMessages` (`for i := 0; i < maxChatLines && i < len-offset; i++`
reads `chatMessages[chatScrollOffset+i]`); a negative index is a Go
runtime panic. -/
def drawChatBoxAccesses (g : Game) : List Int :=
  let count : Nat := (PGO.min maxChatLines ((g.chatMessages.length : Int) - g.chatScrollOffset)).toNat
  (List.range count).map fun i => g.chatScrollOffset + (i : Int)

/-! ### Initial state (src/unnamed/part_003) and concrete frames -/

/-- The `Game` literal built in `main` (src/unnamed/part_003): empty player
map, empty frame tables, animation speeds Idle 30 / Walk 10; all remaining
fields take their Go zero values. -/
def initGame : Game where
  PlayerImages := fun _ _ => []
  Players := []
  ClientID := [0x50]
  FrameIndex := 0
  AnimationTick := 0
  AnimationSpeed := 0
  AnimationSpeeds := fun t => match t with | .Idle => 30 | .Walk => 10
  Direction := .North
  IsMoving := false
  IsMapEditorActive := false
  IsInventoryActive := false
  IsChatBoxActive := false
  IsChatCursorActive := false
  lastToggleTime := 0
  lastCursorBlink := 0
  cursorVisible := false
  chatMessages := []
  currentChatMessage := []
  Username := []
  chatScrollOffset := 0
  isDraggingScrollBar := false
  dragStartY := 0
  originalScrollOffset := 0

/-- A frame input with the given time, Tab/Enter/PageDown/Up/M key states
and typed characters; all other inputs idle. -/
def mkFrame (now : Int) (tab enter pgDn up m : Bool) (chars : List Nat) : FrameInput where
  now := now
  keyTab := tab
  keyEnter := enter
  keyM := m
  keyI := false
  keyUp := up
  keyDown := false
  keyLeft := false
  keyRight := false
  keyPageUp := false
  keyPageDown := pgDn
  keyBackspace := false
  inputChars := chars
  mouseLeft := false
  mouseX := 0
  mouseY := 0

/-! ## Helper lemmas -/

theorem runeToBytes_length_le (c : Nat) : (runeToBytes c).length ≤ 4 := by
  unfold runeToBytes encodeUTF8
  split_ifs <;> simp

theorem chatFold_length_le (chars : List Nat) (msg : GoStr)
    (h : msg.length ≤ maxMessageLen + 3) :
    (chars.foldl
      (fun msg c => if msg.length < maxMessageLen then msg ++ runeToBytes c else msg)
      msg).length ≤ maxMessageLen + 3 := by
  induction chars generalizing msg with
  | nil => exact h
  | cons c cs ih =>
    simp only [List.foldl_cons]
    by_cases hm : msg.length < maxMessageLen
    · refine ih _ ?_
      have hc := runeToBytes_length_le c
      simp only [if_pos hm, List.length_append]
      unfold maxMessageLen at *
      omega
    · simpa only [if_neg hm] using ih _ h

/-! ## C3 -/

/-- C3: after `updateFrameIndex`, the frame index equals
`(old + 1) % frameCount` (Go truncated `%`) when the frame count for the
current direction/animation pair is positive, and `0` when it is zero, and
`getCurrentFrame` on the resulting state never takes its
"frame index out of range" branch. -/
theorem updateFrameIndex_wraps (g : Game) :
    ((updateFrameIndex g).FrameIndex =
      if 0 < ((g.PlayerImages g.Direction (animType g.IsMoving)).length : Int)
      then (g.FrameIndex + 1).tmod
        ((g.PlayerImages g.Direction (animType g.IsMoving)).length : Int)
      else 0)
    ∧ getCurrentFrame (updateFrameIndex g) ≠ .errOutOfRange := by
  unfold updateFrameIndex getCurrentFrame
  by_cases h : 0 < ((g.PlayerImages g.Direction (animType g.IsMoving)).length : Int)
  · refine ⟨by simp [h], ?_⟩
    have hlt := Int.tmod_lt_of_pos (g.FrameIndex + 1) h
    simp only [if_pos h]
    split_ifs with h1 h2 <;> simp_all
  · refine ⟨by simp [h], ?_⟩
    simp only [if_neg h]
    split_ifs with h1 <;> simp_all

/-! ## C4 -/

/-- C4 counterexample: with a 99-byte draft, typing the rune U+20AC
(3 UTF-8 bytes) passes the `len < maxMessageLen` guard and leaves a
102-byte draft — the byte length of `currentChatMessage` exceeds
`maxMessageLen` after `handleChatInput`. -/
theorem handleChatInput_exceeds_cap :
    (handleChatInput { initGame with currentChatMessage := List.replicate 99 0x61 }
        (mkFrame 0 false false false false false [0x20AC])).currentChatMessage.length = 102
    ∧ ¬((handleChatInput { initGame with currentChatMessage := List.replicate 99 0x61 }
        (mkFrame 0 false false false false false [0x20AC])).currentChatMessage.length
          ≤ maxMessageLen) := by
  decide

/-- C4 (amended): `handleChatInput` keeps the byte length of the draft at
most `maxMessageLen + 3`: a rune is appended only while the byte length is
strictly below `maxMessageLen`, and a single rune contributes at most 4
UTF-8 bytes, so the length can overshoot the cap by at most 3 bytes. -/
theorem handleChatInput_len_bound (g : Game) (inp : FrameInput)
    (h : g.currentChatMessage.length ≤ maxMessageLen + 3) :
    (handleChatInput g inp).currentChatMessage.length ≤ maxMessageLen + 3 := by
  unfold handleChatInput
  have hfold := chatFold_length_le inp.inputChars g.currentChatMessage h
  dsimp only
  split_ifs with hb
  · rw [List.length_dropLast]
    exact le_trans (Nat.sub_le _ _) hfold
  · exact hfold

theorem handleChatInput_len_bound_witness :
    initGame.currentChatMessage.length ≤ maxMessageLen + 3
    ∧ (handleChatInput initGame
        (mkFrame 0 false false false false false [0x61, 0x62])).currentChatMessage.length
          ≤ maxMessageLen + 3 :=
  ⟨by decide, handleChatInput_len_bound initGame _ (by decide)⟩

/-! ## C5 -/

/-- C5: a successful decode replaces the player set wholesale — the loop
continues on the state whose `Players` field is exactly the decoded map
(every key present in the message is present with the decoded value, and
every previously known player absent from the message is gone; no partial
merging of fields). -/
theorem listen_replaces_wholesale (g : Game) (players : List (GoStr × Player))
    (rest : List ReadResult) (k : GoStr) :
    ListenToServer g (.ok players :: rest) = ListenToServer (applyServerState g players) rest
    ∧ (applyServerState g players).Players = players
    ∧ lookupPlayer (applyServerState g players).Players k = lookupPlayer players k :=
  ⟨rfl, rfl, rfl⟩

/-! ## C6 -/

/-- C6: on the first decode error the receive loop returns permanently —
the remainder of the stream is never read (no retry, no reconnect) — and
the failing iteration leaves `Players` unchanged: it still holds the last
successfully received state (or the initial one when no message ever
decoded). -/
theorem listen_stops_on_error (g : Game) (ms : List (List (GoStr × Player)))
    (e : Unit) (rest : List ReadResult) :
    ListenToServer g (ms.map Except.ok ++ Except.error e :: rest)
      = ListenToServer g (ms.map Except.ok)
    ∧ (ListenToServer g (ms.map Except.ok)).Players = ms.getLastD g.Players := by
  induction ms generalizing g with
  | nil => exact ⟨rfl, rfl⟩
  | cons m ms ih =>
    have h := ih (applyServerState g m)
    refine ⟨?_, ?_⟩
    · simpa only [List.map_cons, List.cons_append, ListenToServer] using h.1
    · have hm : (applyServerState g m).Players = m := rfl
      simp only [List.map_cons, ListenToServer, List.getLastD_cons]
      rw [h.2, hm]

/-! ## Phase bookkeeping lemmas -/

theorem setDirection_Direction (g : Game) (d : Direction) :
    (setDirection g d).Direction = d := by
  unfold setDirection
  split_ifs with h
  · rfl
  · simpa using h

theorem setDirection_fields (g : Game) (d : Direction) :
    (setDirection g d).lastToggleTime = g.lastToggleTime
    ∧ (setDirection g d).chatMessages = g.chatMessages
    ∧ (setDirection g d).IsMoving = g.IsMoving := by
  unfold setDirection
  split_ifs <;> exact ⟨rfl, rfl, rfl⟩

theorem tabPhase_preserves (g : Game) (inp : FrameInput) :
    (tabPhase g inp).1.chatMessages = g.chatMessages
    ∧ (tabPhase g inp).1.Direction = g.Direction
    ∧ (tabPhase g inp).1.IsMoving = g.IsMoving := by
  unfold tabPhase
  dsimp only
  split_ifs <;> exact ⟨rfl, rfl, rfl⟩

theorem enterPhase_preserves (g : Game) (inp : FrameInput) :
    (enterPhase g inp).1.Direction = g.Direction
    ∧ (enterPhase g inp).1.IsMoving = g.IsMoving := by
  unfold enterPhase
  dsimp only
  split_ifs <;> exact ⟨rfl, rfl⟩

theorem enterPhase_chat (g : Game) (inp : FrameInput) :
    (enterPhase g inp).1.chatMessages = g.chatMessages
    ∨ ∃ entry, (enterPhase g inp).1.chatMessages = g.chatMessages ++ [entry] := by
  unfold enterPhase
  dsimp only
  split_ifs
  · exact .inr ⟨_, rfl⟩
  · exact .inr ⟨_, rfl⟩
  · exact .inl rfl
  · exact .inl rfl

theorem chatInputPhase_preserves (g : Game) (inp : FrameInput) :
    (chatInputPhase g inp).IsChatCursorActive = g.IsChatCursorActive
    ∧ (chatInputPhase g inp).lastToggleTime = g.lastToggleTime
    ∧ (chatInputPhase g inp).chatMessages = g.chatMessages
    ∧ (chatInputPhase g inp).Direction = g.Direction
    ∧ (chatInputPhase g inp).IsMoving = g.IsMoving := by
  unfold chatInputPhase handleChatInput
  dsimp only
  split_ifs <;> exact ⟨rfl, rfl, rfl, rfl, rfl⟩

theorem scrollPhase_preserves (g : Game) (inp : FrameInput) :
    (scrollPhase g inp).lastToggleTime = g.lastToggleTime
    ∧ (scrollPhase g inp).chatMessages = g.chatMessages
    ∧ (scrollPhase g inp).Direction = g.Direction
    ∧ (scrollPhase g inp).IsMoving = g.IsMoving := by
  unfold scrollPhase
  dsimp only
  split_ifs <;> exact ⟨rfl, rfl, rfl, rfl⟩

theorem animationPhase_preserves (g : Game) :
    (animationPhase g).lastToggleTime = g.lastToggleTime
    ∧ (animationPhase g).chatMessages = g.chatMessages
    ∧ (animationPhase g).Direction = g.Direction
    ∧ (animationPhase g).IsMoving = g.IsMoving := by
  unfold animationPhase updateFrameIndex
  dsimp only
  split_ifs <;> exact ⟨rfl, rfl, rfl, rfl⟩

/-- Tab toggle timing: either nothing is accepted and `lastToggleTime` is
untouched, or the chatbox toggle is accepted, `lastToggleTime` becomes
`now`, and the debounce interval had elapsed. -/
theorem tabPhase_timing (g : Game) (inp : FrameInput) :
    ((tabPhase g inp).2 = [] ∧ (tabPhase g inp).1.lastToggleTime = g.lastToggleTime)
    ∨ ((tabPhase g inp).2 = [Control.chatBox]
        ∧ (tabPhase g inp).1.lastToggleTime = inp.now
        ∧ g.lastToggleTime + debounceTime < inp.now) := by
  unfold tabPhase
  dsimp only
  split_ifs with h h2
  · exact .inr ⟨rfl, rfl, by omega⟩
  · exact .inr ⟨rfl, rfl, by omega⟩
  · exact .inl ⟨rfl, rfl⟩

theorem enterPhase_timing (g : Game) (inp : FrameInput) :
    ((enterPhase g inp).2.2 = [] ∧ (enterPhase g inp).1.lastToggleTime = g.lastToggleTime)
    ∨ ((enterPhase g inp).2.2 = [Control.chatCursor]
        ∧ (enterPhase g inp).1.lastToggleTime = inp.now
        ∧ g.lastToggleTime + debounceTime < inp.now) := by
  unfold enterPhase
  dsimp only
  split_ifs
  · exact .inr ⟨rfl, rfl, by omega⟩
  · exact .inr ⟨rfl, rfl, by omega⟩
  · exact .inr ⟨rfl, rfl, by omega⟩
  · exact .inl ⟨rfl, rfl⟩

theorem movementBlock_fields (g : Game) (inp : FrameInput) :
    (movementBlock g inp).1.lastToggleTime = g.lastToggleTime
    ∧ (movementBlock g inp).1.chatMessages = g.chatMessages := by
  unfold movementBlock setDirection
  dsimp only
  split_ifs <;> exact ⟨rfl, rfl⟩

theorem panelToggles_timing (g : Game) (inp : FrameInput) :
    ((panelToggles g inp).2 = []
        ∧ (panelToggles g inp).1.lastToggleTime = g.lastToggleTime)
    ∨ (∃ c, (panelToggles g inp).2 = [c]
        ∧ (panelToggles g inp).1.lastToggleTime = inp.now
        ∧ g.lastToggleTime + debounceTime < inp.now) := by
  unfold panelToggles
  dsimp only
  split_ifs <;> (try dsimp only at *) <;>
    first
      | exact .inl ⟨rfl, rfl⟩
      | exact .inr ⟨.mapEditor, rfl, rfl, by omega⟩
      | exact .inr ⟨.inventory, rfl, rfl, by omega⟩
      | (have hdt : debounceTime = 200 := rfl
         omega)

theorem moveTogglePhase_timing (g : Game) (inp : FrameInput) :
    ((moveTogglePhase g inp).2.2 = []
        ∧ (moveTogglePhase g inp).1.lastToggleTime = g.lastToggleTime)
    ∨ (∃ c, (moveTogglePhase g inp).2.2 = [c]
        ∧ (moveTogglePhase g inp).1.lastToggleTime = inp.now
        ∧ g.lastToggleTime + debounceTime < inp.now) := by
  unfold moveTogglePhase
  dsimp only
  split_ifs with hcur
  · exact .inl ⟨rfl, rfl⟩
  · have hmv := movementBlock_fields (panelToggles g inp).1 inp
    rcases panelToggles_timing g inp with ⟨ht, hl⟩ | ⟨c, ht, hl, hb⟩
    · exact .inl ⟨ht, by dsimp only; rw [hmv.1, hl]⟩
    · exact .inr ⟨c, ht, by dsimp only; rw [hmv.1, hl], hb⟩

/-- Per-frame toggle accounting: a frame accepts no toggle and leaves
`lastToggleTime` alone, or accepts exactly one toggle, stamps
`lastToggleTime := now`, and the debounce interval had elapsed since the
previous value. -/
theorem UpdateStep_timing (g : Game) (inp : FrameInput) :
    (UpdateToggles g inp = [] ∧ (Update g inp).lastToggleTime = g.lastToggleTime)
    ∨ (∃ c, UpdateToggles g inp = [c]
        ∧ (Update g inp).lastToggleTime = inp.now
        ∧ g.lastToggleTime + debounceTime < inp.now) := by
  unfold Update UpdateToggles UpdateStep
  dsimp only
  set g0 : Game := { g with IsMoving := false } with hg0
  have hg0l : g0.lastToggleTime = g.lastToggleTime := rfl
  set g1 := (tabPhase g0 inp).1 with hg1
  set g2 := (enterPhase g1 inp).1 with hg2
  set g3 := chatInputPhase g2 inp with hg3
  set g4 := (moveTogglePhase g3 inp).1 with hg4
  have h3l : g3.lastToggleTime = g2.lastToggleTime := (chatInputPhase_preserves g2 inp).2.1
  have h5l : (scrollPhase g4 inp).lastToggleTime = g4.lastToggleTime :=
    (scrollPhase_preserves g4 inp).1
  have h6l : (animationPhase (scrollPhase g4 inp)).lastToggleTime
      = (scrollPhase g4 inp).lastToggleTime := (animationPhase_preserves (scrollPhase g4 inp)).1
  rcases tabPhase_timing g0 inp with ⟨ht1, hl1⟩ | ⟨ht1, hl1, hb1⟩ <;>
    rcases enterPhase_timing g1 inp with ⟨ht2, hl2⟩ | ⟨ht2, hl2, hb2⟩ <;>
      rcases moveTogglePhase_timing g3 inp with ⟨ht4, hl4⟩ | ⟨c4, ht4, hl4, hb4⟩ <;>
        rw [ht1, ht2, ht4] <;>
          simp only [List.nil_append, List.append_nil, h6l, h5l]
  · exact .inl ⟨by simp, by rw [hl4, h3l, hl2, hl1]⟩
  · exact .inr ⟨c4, by simp, by rw [hl4], by rw [h3l, hl2, hl1] at hb4; exact hb4⟩
  · exact .inr ⟨.chatCursor, by simp, by rw [hl4, h3l, hl2], by rw [hl1] at hb2; exact hb2⟩
  · exfalso
    rw [h3l, hl2] at hb4
    have hdt : debounceTime = 200 := rfl
    omega
  · exact .inr ⟨.chatBox, by simp, by rw [hl4, h3l, hl2, hl1], hb1⟩
  · exfalso
    rw [h3l, hl2, hl1] at hb4
    have hdt : debounceTime = 200 := rfl
    omega
  · exfalso
    rw [hl1] at hb2
    have hdt : debounceTime = 200 := rfl
    omega
  · exfalso
    rw [hl1] at hb2
    have hdt : debounceTime = 200 := rfl
    omega

/-- Every accepted toggle event in a run comes strictly more than
`debounceTime` after the `lastToggleTime` of the starting state. -/
theorem runEvents_lb (inps : List FrameInput) :
    ∀ (g : Game) (e : Int × Control), e ∈ runEvents g inps
      → g.lastToggleTime + debounceTime < e.1 := by
  induction inps with
  | nil => intro g e he; simp [runEvents] at he
  | cons inp rest ih =>
    intro g e he
    simp only [runEvents, List.mem_append, List.mem_map] at he
    rcases he with ⟨c, hc, rfl⟩ | he
    · rcases UpdateStep_timing g inp with ⟨h1, _⟩ | ⟨c', h1, _, h3⟩
      · rw [h1] at hc
        cases hc
      · exact h3
    · have hrec := ih (Update g inp) e he
      rcases UpdateStep_timing g inp with ⟨_, h2⟩ | ⟨c', _, h2, h3⟩
      · rw [h2] at hrec
        exact hrec
      · rw [h2] at hrec
        have hdt : debounceTime = 200 := rfl
        omega

/-- Accepted toggle events of a run are strictly more than `debounceTime`
apart, in order. -/
theorem runEvents_pairwise (inps : List FrameInput) :
    ∀ g : Game, (runEvents g inps).Pairwise
      (fun e1 e2 => e1.1 + debounceTime < e2.1) := by
  induction inps with
  | nil => intro g; simp [runEvents]
  | cons inp rest ih =>
    intro g
    simp only [runEvents]
    rw [List.pairwise_append]
    refine ⟨?_, ih (Update g inp), ?_⟩
    · rcases UpdateStep_timing g inp with ⟨h1, _⟩ | ⟨c, h1, _, _⟩ <;> rw [h1] <;> simp
    · intro e1 h1 e2 h2
      rcases UpdateStep_timing g inp with ⟨ht, _⟩ | ⟨c, ht, hlast, _⟩
      · rw [ht] at h1
        simp at h1
      · rw [ht] at h1
        simp only [List.map_cons, List.map_nil, List.mem_singleton] at h1
        subst h1
        have := runEvents_lb rest (Update g inp) e2 h2
        rw [hlast] at this
        exact this

/-! ## C8 -/

/-- C8: between any two accepted toggle events of the same UI control in a
run of `Update` steps, at least `debounceTime` (200 ms) elapses: an
accepted toggle stamps `lastToggleTime`, and acceptance requires the
frame's `now` to exceed that stamp by more than `debounceTime`, so a held
key cannot re-toggle within the window. (Proved for any two accepted
toggles, same control or not, since `lastToggleTime` is shared.) -/
theorem toggles_debounced (g : Game) (inps : List FrameInput) :
    (runEvents g inps).Pairwise
      (fun e1 e2 => e1.2 = e2.2 → e1.1 + debounceTime ≤ e2.1) := by
  refine List.Pairwise.imp ?_ (runEvents_pairwise inps g)
  intro a b h _
  exact le_of_lt h

/-! ## More phase lemmas (messages, chat history, movement) -/

theorem panelToggles_preserves (g : Game) (inp : FrameInput) :
    (panelToggles g inp).1.chatMessages = g.chatMessages
    ∧ (panelToggles g inp).1.Direction = g.Direction
    ∧ (panelToggles g inp).1.IsMoving = g.IsMoving := by
  unfold panelToggles
  dsimp only
  split_ifs <;> exact ⟨rfl, rfl, rfl⟩

theorem moveTogglePhase_chat (g : Game) (inp : FrameInput) :
    (moveTogglePhase g inp).1.chatMessages = g.chatMessages := by
  unfold moveTogglePhase
  dsimp only
  split_ifs
  · rfl
  · rw [(movementBlock_fields (panelToggles g inp).1 inp).2,
      (panelToggles_preserves g inp).1]

theorem enterPhase_msgs (g : Game) (inp : FrameInput) :
    (enterPhase g inp).2.1 = []
    ∨ ∃ c, (enterPhase g inp).2.1 = [OutMessage.chat c] := by
  unfold enterPhase
  dsimp only
  split_ifs
  · exact .inr ⟨_, rfl⟩
  · exact .inr ⟨_, rfl⟩
  · exact .inl rfl
  · exact .inl rfl

theorem movementBlock_msgs (g : Game) (inp : FrameInput) :
    ∀ m ∈ (movementBlock g inp).2,
      ∃ t, m = .input ⟨t, 2⟩
        ∧ (t = "move_up" ∨ t = "move_down" ∨ t = "move_left" ∨ t = "move_right") := by
  unfold movementBlock
  dsimp only
  split_ifs <;> intro m hm <;>
    first
      | (simp only [List.mem_singleton] at hm
         subst hm
         exact ⟨_, rfl, by simp⟩)
      | simp at hm

theorem moveTogglePhase_msgs (g : Game) (inp : FrameInput) :
    ∀ m ∈ (moveTogglePhase g inp).2.1,
      ∃ t, m = .input ⟨t, 2⟩
        ∧ (t = "move_up" ∨ t = "move_down" ∨ t = "move_left" ∨ t = "move_right") := by
  unfold moveTogglePhase
  dsimp only
  split_ifs
  · intro m hm
    simp at hm
  · exact movementBlock_msgs (panelToggles g inp).1 inp

theorem moveTogglePhase_cursorActive (g : Game) (inp : FrameInput)
    (h : g.IsChatCursorActive = true) :
    moveTogglePhase g inp = (g, [], []) := by
  unfold moveTogglePhase
  simp [h]

theorem moveTogglePhase_cursorInactive (g : Game) (inp : FrameInput)
    (h : g.IsChatCursorActive = false) :
    moveTogglePhase g inp =
      ((movementBlock (panelToggles g inp).1 inp).1,
       (movementBlock (panelToggles g inp).1 inp).2,
       (panelToggles g inp).2) := by
  unfold moveTogglePhase
  simp [h]

theorem movementBlock_spec (g : Game) (inp : FrameInput) :
    (movementBlock g inp).2 =
      (if inp.keyUp then [OutMessage.input { Type' := "move_up", Amount := 2 }]
       else if inp.keyDown then [OutMessage.input { Type' := "move_down", Amount := 2 }]
       else if inp.keyLeft then [OutMessage.input { Type' := "move_left", Amount := 2 }]
       else if inp.keyRight then [OutMessage.input { Type' := "move_right", Amount := 2 }]
       else [])
    ∧ (movementBlock g inp).1.Direction =
      (if inp.keyUp then .North
       else if inp.keyDown then .South
       else if inp.keyLeft then .West
       else if inp.keyRight then .East
       else g.Direction)
    ∧ (movementBlock g inp).1.IsMoving =
      (inp.keyUp || inp.keyDown || inp.keyLeft || inp.keyRight || g.IsMoving) := by
  unfold movementBlock
  dsimp only
  split_ifs with h1 h2 h3 h4 <;>
    refine ⟨rfl, ?_, ?_⟩ <;>
      simp_all [setDirection_Direction, setDirection_fields]

/-! ## C1 -/

/-- The 23 frames refuting the chat-history cap from the initial state:
Tab opens the chatbox on frame 0; thereafter Enter alternately focuses the
cursor (with one character typed) and unfocuses it (sending the draft),
every frame 300 ms after the previous one; 11 messages get sent. -/
def c1Frames : List FrameInput :=
  (List.range 23).map fun i =>
    mkFrame (1000 + 300 * (i : Int)) (i == 0) (0 < i) false false false
      (if i % 2 == 1 then [0x61] else [])

set_option maxRecDepth 4000 in
/-- C1 counterexample: running the 23 concrete frames of `c1Frames` from
the initial state leaves 11 entries in the chat history — more than
`maxChatLines` (10) — so appending a sent message does not evict the
oldest entry and the history is not capped. -/
theorem chat_history_exceeds_cap :
    ((run initGame c1Frames).chatMessages.length : Int) = 11
    ∧ maxChatLines < ((run initGame c1Frames).chatMessages.length : Int) := by
  constructor
  · decide
  · decide

/-- C1 (amended): the chat history is append-only and unbounded — an
`Update` step either leaves `chatMessages` unchanged or appends exactly
one formatted entry at the end, and never evicts an old message, so the
length can exceed `maxChatLines` (the scroll offset, not eviction, keeps
the newest `maxChatLines` messages in view). -/
theorem update_chat_append_only (g : Game) (inp : FrameInput) :
    (Update g inp).chatMessages = g.chatMessages
    ∨ ∃ entry, (Update g inp).chatMessages = g.chatMessages ++ [entry] := by
  unfold Update UpdateStep
  dsimp only
  set g0 : Game := { g with IsMoving := false } with hg0
  have h1 := (tabPhase_preserves g0 inp).1
  set g1 := (tabPhase g0 inp).1
  have h2 := enterPhase_chat g1 inp
  set g2 := (enterPhase g1 inp).1
  have h3 := (chatInputPhase_preserves g2 inp).2.2.1
  set g3 := chatInputPhase g2 inp
  have h4 := moveTogglePhase_chat g3 inp
  set g4 := (moveTogglePhase g3 inp).1
  have h5 := (scrollPhase_preserves g4 inp).2.1
  have h6 := (animationPhase_preserves (scrollPhase g4 inp)).2.1
  have hg0c : g0.chatMessages = g.chatMessages := rfl
  rw [h6, h5, h4, h3]
  rcases h2 with h2 | ⟨entry, h2⟩
  · exact .inl (by rw [h2, h1, hg0c])
  · exact .inr ⟨entry, by rw [h2, h1, hg0c]⟩

/-! ## C2 -/

/-- Two frames from the initial state: M at t=1000 opens the map editor;
Up at t=1300 with the map editor active. -/
def c2Frame1 : FrameInput := mkFrame 1000 false false false false true []
def c2Frame2 : FrameInput := mkFrame 1300 false false false true false []

/-- C2 counterexample: with the map editor active (a UI panel) and the
chat cursor inactive, pressing Up still writes a `move_up` command to the
connection — panel visibility does not suppress movement. -/
theorem move_sent_while_panel_active :
    (Update initGame c2Frame1).IsMapEditorActive = true
    ∧ UpdateMsgs (Update initGame c2Frame1) c2Frame2
        = [OutMessage.input { Type' := "move_up", Amount := 2 }] := by
  constructor
  · decide
  · decide

/-- C2 (amended): outbound move commands are suppressed exactly by chat
cursor focus, not by panel visibility: in any `Update` step in which the
chat cursor is active once the toggle/chat phases have run, no move
command is written, whatever arrow keys are pressed (the map-editor,
inventory and chat-box flags play no part in the suppression). -/
theorem moves_suppressed_when_cursor (g : Game) (inp : FrameInput)
    (h : (afterChatPhases g inp).IsChatCursorActive = true) :
    moveMsgs g inp = [] := by
  unfold moveMsgs UpdateMsgs UpdateStep
  dsimp only
  have hmv := moveTogglePhase_cursorActive (afterChatPhases g inp) inp h
  rw [show chatInputPhase (enterPhase (tabPhase { g with IsMoving := false } inp).1 inp).1 inp
      = afterChatPhases g inp from rfl, hmv]
  dsimp only
  rcases enterPhase_msgs (tabPhase { g with IsMoving := false } inp).1 inp with he | ⟨c, he⟩ <;>
    rw [he] <;> simp

theorem moves_suppressed_when_cursor_witness :
    (afterChatPhases { initGame with IsChatBoxActive := true, IsChatCursorActive := true }
        (mkFrame 1000 false false false true false [])).IsChatCursorActive = true
    ∧ moveMsgs { initGame with IsChatBoxActive := true, IsChatCursorActive := true }
        (mkFrame 1000 false false false true false []) = [] :=
  ⟨by decide,
   moves_suppressed_when_cursor
     { initGame with IsChatBoxActive := true, IsChatCursorActive := true }
     (mkFrame 1000 false false false true false []) (by decide)⟩

/-! ## C7 -/

/-- C7: every message `Update` writes to the socket is either an `Input`
whose type tag is one of `move_up`, `move_down`, `move_left`,
`move_right` with numeric amount 2, or a `ChatMessage` consisting of
exactly a username and a message field. -/
theorem update_msgs_shape (g : Game) (inp : FrameInput) (m : OutMessage)
    (hm : m ∈ UpdateMsgs g inp) :
    (∃ t, m = .input { Type' := t, Amount := 2 }
      ∧ (t = "move_up" ∨ t = "move_down" ∨ t = "move_left" ∨ t = "move_right"))
    ∨ ∃ u s, m = .chat { Username := u, Message := s } := by
  unfold UpdateMsgs UpdateStep at hm
  dsimp only at hm
  rw [List.mem_append] at hm
  rcases hm with hm | hm
  · rcases enterPhase_msgs (tabPhase { g with IsMoving := false } inp).1 inp with he | ⟨c, he⟩ <;>
      rw [he] at hm
    · cases hm
    · simp only [List.mem_singleton] at hm
      subst hm
      exact .inr ⟨c.Username, c.Message, rfl⟩
  · exact .inl (moveTogglePhase_msgs _ inp m hm)

theorem update_msgs_shape_witness :
    (OutMessage.input { Type' := "move_up", Amount := 2 }
        ∈ UpdateMsgs initGame (mkFrame 1000 false false false true false []))
    ∧ ((∃ t, OutMessage.input { Type' := "move_up", Amount := 2 }
          = .input { Type' := t, Amount := 2 }
        ∧ (t = "move_up" ∨ t = "move_down" ∨ t = "move_left" ∨ t = "move_right"))
      ∨ ∃ u s, OutMessage.input { Type' := "move_up", Amount := 2 }
          = .chat { Username := u, Message := s }) :=
  ⟨by decide,
   update_msgs_shape initGame (mkFrame 1000 false false false true false []) _ (by decide)⟩

/-! ## C9 -/

/-- Two frames from the initial state: Tab at t=1000 opens the chat box
(history empty); PageDown at t=1300. -/
def c9Frames : List FrameInput :=
  [mkFrame 1000 true false false false false [],
   mkFrame 1300 false false true false false []]

/-- C9 (code bug): pressing PageDown with an empty chat history sets
`chatScrollOffset` to `min(len - maxChatLines, offset + 1) = -10`,
outside `[0, max(0, len - maxChatLines)]`, and `drawChatBox` would then
read `chatMessages[-10]`, an out-of-range index (runtime panic in Go). -/
theorem scroll_offset_goes_negative :
    (run initGame c9Frames).chatScrollOffset = -10
    ∧ ¬(0 ≤ (run initGame c9Frames).chatScrollOffset
        ∧ (run initGame c9Frames).chatScrollOffset
          ≤ PGO.max 0 (((run initGame c9Frames).chatMessages.length : Int) - maxChatLines))
    ∧ (-10 : Int) ∈ drawChatBoxAccesses (run initGame c9Frames) := by
  refine ⟨by decide, by decide, by decide⟩

/-! ## C10 -/

/-- C10: in an `Update` step whose movement block runs with the chat
cursor inactive, at most one move command is sent, chosen by the fixed
priority up, down, left, right among the pressed arrow keys; the facing
direction is set to match it (North, South, West, East) and `IsMoving` is
set exactly when some arrow key is pressed. -/
theorem move_priority (g : Game) (inp : FrameInput)
    (h : (afterChatPhases g inp).IsChatCursorActive = false) :
    moveMsgs g inp =
      (if inp.keyUp then [OutMessage.input { Type' := "move_up", Amount := 2 }]
       else if inp.keyDown then [OutMessage.input { Type' := "move_down", Amount := 2 }]
       else if inp.keyLeft then [OutMessage.input { Type' := "move_left", Amount := 2 }]
       else if inp.keyRight then [OutMessage.input { Type' := "move_right", Amount := 2 }]
       else [])
    ∧ (Update g inp).Direction =
      (if inp.keyUp then .North
       else if inp.keyDown then .South
       else if inp.keyLeft then .West
       else if inp.keyRight then .East
       else g.Direction)
    ∧ (Update g inp).IsMoving
        = (inp.keyUp || inp.keyDown || inp.keyLeft || inp.keyRight) := by
  unfold moveMsgs UpdateMsgs Update UpdateStep
  dsimp only
  have hmv := moveTogglePhase_cursorInactive (afterChatPhases g inp) inp h
  rw [show chatInputPhase (enterPhase (tabPhase { g with IsMoving := false } inp).1 inp).1 inp
      = afterChatPhases g inp from rfl, hmv]
  dsimp only
  set g0 : Game := { g with IsMoving := false } with hg0
  set gA := afterChatPhases g inp with hgA
  have hAdir : gA.Direction = g.Direction := by
    rw [hgA]
    unfold afterChatPhases
    rw [(chatInputPhase_preserves _ inp).2.2.2.1,
      (enterPhase_preserves _ inp).1, (tabPhase_preserves _ inp).2.1]
  have hAmov : gA.IsMoving = false := by
    rw [hgA]
    unfold afterChatPhases
    rw [(chatInputPhase_preserves _ inp).2.2.2.2,
      (enterPhase_preserves _ inp).2, (tabPhase_preserves _ inp).2.2]
  set gP := (panelToggles gA inp).1 with hgP
  have hPdir : gP.Direction = g.Direction := by
    rw [hgP, (panelToggles_preserves gA inp).2.1, hAdir]
  have hPmov : gP.IsMoving = false := by
    rw [hgP, (panelToggles_preserves gA inp).2.2, hAmov]
  have hspec := movementBlock_spec gP inp
  set gM := (movementBlock gP inp).1 with hgM
  have hScroll := scrollPhase_preserves gM inp
  have hAnim := animationPhase_preserves (scrollPhase gM inp)
  refine ⟨?_, ?_, ?_⟩
  · rcases enterPhase_msgs (tabPhase g0 inp).1 inp with he | ⟨c, he⟩ <;>
      rw [he, hspec.1] <;> split_ifs <;> simp
  · rw [hAnim.2.2.1, hScroll.2.2.1, hspec.2.1, hPdir]
  · rw [hAnim.2.2.2, hScroll.2.2.2, hspec.2.2, hPmov]
    simp

theorem move_priority_witness :
    (afterChatPhases initGame (mkFrame 1000 false false false true false [])).IsChatCursorActive
        = false
    ∧ moveMsgs initGame (mkFrame 1000 false false false true false [])
        = [OutMessage.input { Type' := "move_up", Amount := 2 }] :=
  ⟨by decide,
   (move_priority initGame (mkFrame 1000 false false false true false []) (by decide)).1.trans
     (by decide)⟩

end PGO
